import Mathlib

/-!
Shallow embedding of NewGreedy.py, an HTTP proxy that intercepts BitTorrent
tracker announce requests and rewrites the uploaded field.  The embedding
covers the decision engine of the do_GET handler: regex extraction of the
query fields, cooldown expiry and activation, mode and multiplier selection,
the rate cap, the per-torrent stats store of StatsManager, and the
query-string rewrite.  URLs are lists of characters, Python floats are
modelled exactly as rationals, and the single draw of
random.uniform(-RANDOM_FACTOR, RANDOM_FACTOR) on line 160 is an explicit
parameter u (a faithful run satisfies -RANDOM_FACTOR <= u <= RANDOM_FACTOR).
Network forwarding, logging and reverse DNS do not influence the decision
engine and are not modelled.
-/

namespace NewGreedy

/-- URLs, query strings, keys and digit runs are lists of characters. -/
abbrev Str := List Char

/-- Python int() applied to a rational number (floats are modelled exactly
as rationals): truncation toward zero. -/
def truncQ (q : ℚ) : ℤ := if 0 ≤ q then ⌊q⌋ else ⌈q⌉

/-- The configuration constants read from config.ini at startup
(NewGreedy.py lines 47-54).  MAX_SPEED_BPS is the derived bytes-per-second
value of line 52. -/
structure Config where
  MAX_MULTIPLIER : ℚ
  SEEDING_MULTIPLIER : ℚ
  RANDOM_FACTOR : ℚ
  MAX_SPEED_BPS : ℚ
  GLOBAL_RATIO_LIMIT : ℚ
  COOLDOWN_MINUTES : ℕ
deriving DecidableEq

/-- One value of the StatsManager.torrents dictionary (lines 91-100): the
four fields stored for a tracked info_hash.  An entry always carries all
four fields, because StatsManager.update overwrites the freshly initialised
record with the full field set. -/
structure EntityState where
  downloaded : ℕ
  uploaded_real : ℕ
  uploaded_reported : ℤ
  last_update : ℚ
deriving DecidableEq

/-- The process-wide mutable state shared by all request handlers: the two
cooldown globals of lines 57-58 and the StatsManager.torrents dictionary,
modelled as an insertion-ordered association list (matching Python dict
semantics). -/
structure ProxyState where
  is_in_cooldown : Bool
  cooldown_end_time : ℚ
  torrents : List (Str × EntityState)
deriving DecidableEq

/-- Dictionary lookup in the torrents association list. -/
def lookupT : List (Str × EntityState) → Str → Option EntityState
  | [], _ => none
  | (k', v') :: rest, k => if k' = k then some v' else lookupT rest k

/-- StatsManager.update (lines 91-100): replace the entry for the key, or
append a new entry (Python dicts keep insertion order). -/
def upsert : List (Str × EntityState) → Str → EntityState → List (Str × EntityState)
  | [], k, v => [(k, v)]
  | (k', v') :: rest, k, v =>
    if k' = k then (k, v) :: rest else (k', v') :: upsert rest k v

/-- StatsManager.get_total_downloaded (lines 106-108). -/
def get_total_downloaded (ts : List (Str × EntityState)) : ℕ :=
  (ts.map (fun t => t.2.downloaded)).sum

/-- StatsManager.get_total_reported_upload (lines 110-112). -/
def get_total_reported_upload (ts : List (Str × EntityState)) : ℤ :=
  (ts.map (fun t => t.2.uploaded_reported)).sum

/-- StatsManager.get_global_ratio (lines 114-117): total reported upload
divided by total downloaded, and 0 when nothing has been downloaded. -/
def get_global_ratio (ts : List (Str × EntityState)) : ℚ :=
  if 0 < get_total_downloaded ts then
    (get_total_reported_upload ts : ℚ) / (get_total_downloaded ts : ℚ)
  else 0

/-- The mode string chosen for one announce (lines 150-167). -/
inductive Mode where
  | COOLDOWN
  | SEEDING
  | DOWNLOADING
deriving DecidableEq

/-- The per-announce outcome that do_GET logs and persists: the mode, the
effective multiplier after randomization and any cooldown override, and
the reported upload value written to the store and into the URL. -/
structure Decision where
  mode : Mode
  multiplier : ℚ
  reported_upload : ℤ
deriving DecidableEq

/-- Boolean test that the first list is an initial segment of the second. -/
def leadsWith : Str → Str → Bool
  | [], _ => true
  | _ :: _, [] => false
  | c :: cs, d :: ds => if c = d then leadsWith cs ds else false

/-- Python re.search for a pattern of the shape key(valueChar+): scan left
to right; at the first position where the literal key occurs immediately
followed by at least one character satisfying p, return the text before
the match, the greedy run of value characters (the capture group) and the
text after the match.  This mirrors the regexes of lines 126-129 on the
ASCII input of an announce URL. -/
def reSearch (key : Str) (p : Char → Bool) : Str → Option (Str × Str × Str)
  | [] => none
  | c :: cs =>
    let here : Option (Str × Str) :=
      if leadsWith key (c :: cs) = true then
        let pr := ((c :: cs).drop key.length).span p
        if pr.1.isEmpty then none else some pr
      else none
    match here with
    | some pr => some ([], pr.1, pr.2)
    | none =>
      match reSearch key p cs with
      | some r => some (c :: r.1, r.2.1, r.2.2)
      | none => none

/-- Value of a run of decimal digits, as Python int() on the matched group. -/
def natOfDigits (ds : Str) : ℕ :=
  ds.foldl (fun n c => 10 * n + (c.toNat - 48)) 0

/-- Decimal rendering of a natural number, as a Python f-string does. -/
def natToDecimal (n : ℕ) : Str := Nat.toDigits 10 n

/-- Decimal rendering of an integer, as a Python f-string does. -/
def intToDecimal : ℤ → Str
  | Int.ofNat n => natToDecimal n
  | Int.negSucc n => '-' :: natToDecimal (n + 1)

/-- Value of a hexadecimal digit, if any. -/
def hexVal (c : Char) : Option ℕ :=
  if '0' ≤ c ∧ c ≤ '9' then some (c.toNat - 48)
  else if 'a' ≤ c ∧ c ≤ 'f' then some (c.toNat - 87)
  else if 'A' ≤ c ∧ c ≤ 'F' then some (c.toNat - 55)
  else none

/-- urllib.parse.unquote on the info_hash group (line 136), restricted to
the byte level: a percent sign followed by two hex digits becomes the
encoded character, anything else is kept verbatim.  (unquote additionally
reassembles multi-byte UTF-8 sequences; that only renames keys uniformly
and no claim depends on it.) -/
def percentDecode : Str → Str
  | [] => []
  | '%' :: a :: b :: rest =>
    match hexVal a, hexVal b with
    | some ha, some hb => Char.ofNat (16 * ha + hb) :: percentDecode rest
    | _, _ => '%' :: percentDecode (a :: b :: rest)
  | c :: rest => c :: percentDecode rest

/-- Python str.replace (line 187): replace every non-overlapping occurrence
of pat, scanning left to right.  (Python inserts rep between all characters
when pat is empty; the callers here always pass a nonempty pat, and this
model leaves the string unchanged in that unreachable case.) -/
def replaceAll (pat rep : Str) : Str → Str
  | [] => []
  | c :: cs =>
    if h : pat ≠ [] ∧ leadsWith pat (c :: cs) = true then
      rep ++ replaceAll pat rep ((c :: cs).drop pat.length)
    else
      c :: replaceAll pat rep cs
termination_by s => s.length
decreasing_by
  · simp only [List.length_drop, List.length_cons]
    have hp : 0 < pat.length := by
      cases pat with
      | nil => exact absurd rfl h.1
      | cons x xs => simp
    omega
  · simp only [List.length_cons]
    omega

/-- Number of occurrences of pat that the left-to-right non-overlapping
scan of replaceAll replaces. -/
def countOcc (pat : Str) : Str → ℕ
  | [] => 0
  | c :: cs =>
    if h : pat ≠ [] ∧ leadsWith pat (c :: cs) = true then
      1 + countOcc pat ((c :: cs).drop pat.length)
    else
      countOcc pat cs
termination_by s => s.length
decreasing_by
  · simp only [List.length_drop, List.length_cons]
    have hp : 0 < pat.length := by
      cases pat with
      | nil => exact absurd rfl h.1
      | cons x xs => simp
    omega
  · simp only [List.length_cons]
    omega

/-- last_stats.get of line 171: the stored last_update of the entity, or
current_time when the entity is unknown. -/
def last_update_of (st : ProxyState) (info_hash : Str) (current_time : ℚ) : ℚ :=
  match lookupT st.torrents info_hash with
  | some e => e.last_update
  | none => current_time

/-- last_stats.get of line 174: the stored uploaded_reported of the entity,
or 0 when the entity is unknown. -/
def prev_reported_of (st : ProxyState) (info_hash : Str) : ℤ :=
  match lookupT st.torrents info_hash with
  | some e => e.uploaded_reported
  | none => 0

/-- The decision core of do_GET (lines 145-178) on already-extracted
fields: cooldown expiry, mode and base multiplier selection, the
unconditional randomization of line 160 (draw u), the global-ratio
cooldown trip evaluated on the store before this request's update, the
rate cap of lines 170-176 and the store update of line 178.  The store
write uses the request's current_time (the source calls time.time() again
inside StatsManager.update, a hair later than line 145; the decision logic
only ever compares timestamps of distinct announces). -/
def announceCore (cfg : Config) (st : ProxyState) (info_hash : Str)
    (real_downloaded real_uploaded left : ℕ) (current_time u : ℚ) :
    ProxyState × Decision :=
  let is_cd1 : Bool :=
    if st.is_in_cooldown = true ∧ st.cooldown_end_time < current_time then false
    else st.is_in_cooldown
  let base : ℚ × Mode :=
    if is_cd1 = true then (1, Mode.COOLDOWN)
    else if left = 0 then (cfg.SEEDING_MULTIPLIER, Mode.SEEDING)
    else (cfg.MAX_MULTIPLIER, Mode.DOWNLOADING)
  let mult2 : ℚ := base.1 * (1 + u)
  let trip : Bool :=
    if is_cd1 = false ∧ cfg.GLOBAL_RATIO_LIMIT < get_global_ratio st.torrents then true
    else false
  let is_cd2 : Bool := if trip = true then true else is_cd1
  let end2 : ℚ :=
    if trip = true then current_time + (cfg.COOLDOWN_MINUTES : ℚ) * 60
    else st.cooldown_end_time
  let mult3 : ℚ := if trip = true then 1 else mult2
  let mode2 : Mode := if trip = true then Mode.COOLDOWN else base.2
  let reported0 : ℤ := truncQ ((real_downloaded : ℚ) * mult3)
  let time_delta : ℚ := current_time - last_update_of st info_hash current_time
  let reported : ℤ :=
    if 0 < time_delta then
      let capped : ℤ := prev_reported_of st info_hash + truncQ (cfg.MAX_SPEED_BPS * time_delta)
      if capped < reported0 then capped else reported0
    else reported0
  (⟨is_cd2, end2,
    upsert st.torrents info_hash ⟨real_downloaded, real_uploaded, reported, current_time⟩⟩,
   ⟨mode2, mult3, reported⟩)

/-- Result of one do_GET: the new process state, the URL handed to
forward_request, and the decision (none when the request passed through
unmodified because a required regex did not match). -/
structure StepResult where
  state : ProxyState
  url : Str
  decision : Option Decision
deriving DecidableEq

/-- The decision pipeline of NewGreedyProxyHandler.do_GET (lines 122-188):
regex extraction of uploaded, downloaded, info_hash and left, pass-through
when a required regex has no match, the announce core, and the str.replace
rewrite of the URL.  The ip regex and reverse DNS of lines 130 and 142-143
feed logging only and are omitted. -/
def do_GET (cfg : Config) (st : ProxyState) (original_url : Str)
    (current_time u : ℚ) : StepResult :=
  match reSearch ("uploaded=".data) Char.isDigit original_url,
        reSearch ("downloaded=".data) Char.isDigit original_url,
        reSearch ("info_hash=".data) (fun c => c != '&') original_url with
  | some um, some dm, some hm =>
    let info_hash : Str := percentDecode hm.2.1
    let real_downloaded : ℕ := natOfDigits dm.2.1
    let real_uploaded : ℕ := natOfDigits um.2.1
    let real_uploaded_str : Str := "uploaded=".data ++ um.2.1
    let left : ℕ :=
      match reSearch ("left=".data) Char.isDigit original_url with
      | some lm => natOfDigits lm.2.1
      | none => 1
    let r := announceCore cfg st info_hash real_downloaded real_uploaded left current_time u
    let new_url : Str :=
      replaceAll real_uploaded_str ("uploaded=".data ++ intToDecimal r.2.reported_upload)
        original_url
    ⟨r.1, new_url, some r.2⟩
  | _, _, _ => ⟨st, original_url, none⟩

/-- The matched group(0) of the uploaded regex, when it matches: the
literal substring that line 187 passes to str.replace. -/
def matchedUploaded (url : Str) : Option Str :=
  match reSearch ("uploaded=".data) Char.isDigit url with
  | some r => some ("uploaded=".data ++ r.2.1)
  | none => none

/-- Query string of a request target: everything after the first question
mark, per the AnnounceInterceptor contract of the design. -/
def afterQuestionMark : Str → Str
  | [] => []
  | '?' :: rest => rest
  | _ :: rest => afterQuestionMark rest

/-- Split a list on a separator character. -/
def splitOnChar (sep : Char) : Str → List Str
  | [] => [[]]
  | c :: cs =>
    let r := splitOnChar sep cs
    if c = sep then [] :: r
    else
      match r with
      | [] => [[c]]
      | g :: gs => (c :: g) :: gs

/-- Spec-side field extraction, for comparing the AnnounceInterceptor
contract (section 4.4: locate fields by exact key match) with the
regex-substring behaviour of the code: the query string is split on
ampersands, a field's key is everything before its first equals sign, and
the value of the first field whose key matches exactly is returned. -/
def specFieldValue (url : Str) (key : Str) : Option Str :=
  let fields := (splitOnChar '&' (afterQuestionMark url)).map
    (fun f => f.span (fun c => c != '='))
  match fields.find? (fun f => f.1 == key) with
  | some f => some (f.2.drop 1)
  | none => none

/-- Spec-side test that a field value is syntactically an unsigned number. -/
def isNumeric (v : Str) : Bool := !v.isEmpty && v.all Char.isDigit

/-- A configuration used by the concrete scenarios: maximum multiplier 1.6,
seeding multiplier 1.2, randomization factor 0, a 10^9-bytes-per-second
rate cap, global ratio limit 1.8, cooldown 10 minutes. -/
def exCfg : Config := ⟨8/5, 6/5, 0, 10^9, 9/5, 10⟩

/-- The configuration of exCfg but with randomization factor 0.1. -/
def c2cfg : Config := ⟨8/5, 6/5, 1/10, 10^9, 9/5, 10⟩

/-- The configuration of the concrete scenario of the spec (section 8):
randomization factor 0 and an effectively unlimited rate. -/
def c8cfg : Config := ⟨8/5, 6/5, 0, 10^15, 9/5, 10⟩

/-- Fresh process state: no cooldown, empty store. -/
def st0 : ProxyState := ⟨false, 0, []⟩

/-- A state holding one tracked entity h with 1000 bytes downloaded,
1600 reported, last seen at time 0. -/
def stH : ProxyState := ⟨false, 0, [("h".data, ⟨1000, 0, 1600, 0⟩)]⟩

/-- A state whose entity h was last seen at time 50 with 100 reported. -/
def c3st : ProxyState := ⟨false, 0, [("h".data, ⟨100, 0, 100, 50⟩)]⟩

/-- A state inside an active cooldown that ends at time 1000. -/
def c2st : ProxyState := ⟨true, 1000, []⟩

/-- A state whose global ratio is 500/100 = 5, above the 1.8 limit. -/
def c7st : ProxyState := ⟨false, 0, [("g".data, ⟨100, 0, 500, 0⟩)]⟩

/-- A state inside an active cooldown that ends at time 10. -/
def c9st : ProxyState := ⟨true, 10, []⟩

/-- Announce URLs of the concrete scenarios. -/
def c1url1 : Str := "/ann?info_hash=h&uploaded=0&downloaded=1000&left=1".data

/-- Same announce with left=0 (completed torrent). -/
def c1url2 : Str := "/ann?info_hash=h&uploaded=0&downloaded=1000&left=0".data

/-- Announce without a left field (defaults to 1). -/
def c2url : Str := "/ann?info_hash=h&uploaded=0&downloaded=1000".data

/-- Announce in which the matched substring uploaded=5 occurs twice: once
as the uploaded field and once inside the unrelated field reuploaded=5. -/
def c4url : Str := "/ann?info_hash=h&uploaded=5&downloaded=3&reuploaded=5".data

/-- Announce in which the matched substring uploaded=7 occurs exactly once. -/
def c4wurl : Str := "/a?info_hash=h&uploaded=7&downloaded=10".data

/-- Request whose uploaded field has the non-numeric value 12abc. -/
def c6url : Str := "/ann?uploaded=12abc&downloaded=3&info_hash=h".data

/-- Request with no uploaded field at all. -/
def c6wurl : Str := "/ann?downloaded=3&info_hash=h".data

/-- The spec's concrete scenario: 100 MiB downloaded, torrent complete. -/
def c8urlSeed : Str := "/ann?info_hash=h&uploaded=0&downloaded=104857600&left=0".data

/-- The spec's concrete scenario with a nonzero left field. -/
def c8urlDown : Str := "/ann?info_hash=h&uploaded=0&downloaded=104857600&left=1".data

/-- Minimal well-formed announce. -/
def c9url : Str := "/a?info_hash=h&uploaded=1&downloaded=1".data

theorem lookupT_upsert (ts : List (Str × EntityState)) (k : Str) (v : EntityState) :
    lookupT (upsert ts k v) k = some v := by
  induction ts with
  | nil => simp [upsert, lookupT]
  | cons p rest ih =>
    obtain ⟨k', v'⟩ := p
    by_cases h : k' = k
    · simp [upsert, lookupT, h]
    · simp [upsert, lookupT, h, ih]

theorem truncQ_eq_floor {q : ℚ} (h : 0 ≤ q) : truncQ q = ⌊q⌋ := by
  simp [truncQ, h]

theorem truncQ_nonneg {q : ℚ} (h : 0 ≤ q) : 0 ≤ truncQ q := by
  rw [truncQ_eq_floor h]
  exact Int.floor_nonneg.mpr h

theorem leadsWith_append (pat : Str) :
    ∀ s : Str, leadsWith pat s = true → pat ++ s.drop pat.length = s := by
  induction pat with
  | nil => intro s _; simp
  | cons c cs ih =>
    intro s h
    cases s with
    | nil => simp [leadsWith] at h
    | cons d ds =>
      rw [leadsWith] at h
      by_cases hcd : c = d
      · rw [if_pos hcd] at h
        simpa [hcd] using ih ds h
      · rw [if_neg hcd] at h
        exact absurd h (by simp)

theorem announceCore_reported (cfg : Config) (st : ProxyState) (ih : Str)
    (d ur left : ℕ) (t u : ℚ) :
    (announceCore cfg st ih d ur left t u).2.reported_upload =
      if 0 < t - last_update_of st ih t then
        if prev_reported_of st ih + truncQ (cfg.MAX_SPEED_BPS * (t - last_update_of st ih t)) <
            truncQ ((d : ℚ) * (announceCore cfg st ih d ur left t u).2.multiplier) then
          prev_reported_of st ih + truncQ (cfg.MAX_SPEED_BPS * (t - last_update_of st ih t))
        else truncQ ((d : ℚ) * (announceCore cfg st ih d ur left t u).2.multiplier)
      else truncQ ((d : ℚ) * (announceCore cfg st ih d ur left t u).2.multiplier) := rfl

theorem announceCore_store (cfg : Config) (st : ProxyState) (ih : Str)
    (d ur left : ℕ) (t u : ℚ) :
    (announceCore cfg st ih d ur left t u).1.torrents =
      upsert st.torrents ih
        ⟨d, ur, (announceCore cfg st ih d ur left t u).2.reported_upload, t⟩ := rfl

theorem announceCore_keeps_cooldown (cfg : Config) (st : ProxyState) (ih : Str)
    (d ur left : ℕ) (t u : ℚ)
    (hact : st.is_in_cooldown = true) (hle : ¬ st.cooldown_end_time < t) :
    (announceCore cfg st ih d ur left t u).1.is_in_cooldown = true := by
  simp only [announceCore]
  simp [hact, hle]

theorem replaceAll_of_countOcc_eq_zero (pat rep : Str) :
    ∀ n (s : Str), s.length ≤ n → countOcc pat s = 0 → replaceAll pat rep s = s := by
  intro n
  induction n with
  | zero =>
    intro s hlen _
    have : s = [] := List.eq_nil_of_length_eq_zero (Nat.le_zero.mp hlen)
    subst this
    rw [replaceAll]
  | succ n ih =>
    intro s hlen h
    cases s with
    | nil => rw [replaceAll]
    | cons c cs =>
      rw [countOcc] at h
      rw [replaceAll]
      by_cases hc : pat ≠ [] ∧ leadsWith pat (c :: cs) = true
      · rw [dif_pos hc] at h
        omega
      · rw [dif_neg hc] at h ⊢
        have hlen' : cs.length ≤ n := by
          simp only [List.length_cons] at hlen
          omega
        rw [ih cs hlen' h]

theorem replaceAll_of_countOcc_eq_one (pat rep : Str) :
    ∀ n (s : Str), s.length ≤ n → countOcc pat s = 1 →
      ∃ a b : Str, s = a ++ pat ++ b ∧ replaceAll pat rep s = a ++ rep ++ b := by
  intro n
  induction n with
  | zero =>
    intro s hlen h
    have : s = [] := List.eq_nil_of_length_eq_zero (Nat.le_zero.mp hlen)
    subst this
    rw [countOcc] at h
    omega
  | succ n ih =>
    intro s hlen h
    cases s with
    | nil => rw [countOcc] at h; omega
    | cons c cs =>
      rw [countOcc] at h
      by_cases hc : pat ≠ [] ∧ leadsWith pat (c :: cs) = true
      · rw [dif_pos hc] at h
        have hz : countOcc pat ((c :: cs).drop pat.length) = 0 := by omega
        have hp : 0 < pat.length := List.length_pos.mpr hc.1
        refine ⟨[], (c :: cs).drop pat.length, ?_, ?_⟩
        · simpa using (leadsWith_append pat (c :: cs) hc.2).symm
        · rw [replaceAll, dif_pos hc,
            replaceAll_of_countOcc_eq_zero pat rep n ((c :: cs).drop pat.length)
              (by
                simp only [List.length_drop, List.length_cons]
                simp only [List.length_cons] at hlen
                omega) hz]
          simp
      · rw [dif_neg hc] at h
        have hlen' : cs.length ≤ n := by
          simp only [List.length_cons] at hlen
          omega
        obtain ⟨a, b, hs, hr⟩ := ih cs hlen' h
        refine ⟨c :: a, b, by simp [hs], ?_⟩
        rw [replaceAll, dif_neg hc, hr]
        simp

/-- Claim C1 (counterexample): with randomization 0, max multiplier 1.6 and
seeding multiplier 1.2, entity h reports 1600 for its first announce
(downloaded 1000, left 1 at time 0) and then 1200 for its second
(downloaded 1000, left 0 at time 100): the persisted uploadedReported value
decreases from 1600 to 1200, so it is not non-decreasing. -/
theorem C1_counterexample :
    (lookupT (do_GET exCfg st0 c1url1 0 0).state.torrents ("h".data)).map
        (fun e => e.uploaded_reported) = some 1600 ∧
    (lookupT (do_GET exCfg (do_GET exCfg st0 c1url1 0 0).state c1url2 100 0).state.torrents
        ("h".data)).map (fun e => e.uploaded_reported) = some 1200 ∧
    (1200 : ℤ) < 1600 := by
  refine ⟨by decide!, by decide!, by decide!⟩

/-- Claim C2 (code bug): while the cooldown entered earlier is still active
(ends at 1000, announce at 500), line 160 still multiplies the pinned 1.0
cooldown multiplier by the random factor: with RANDOM_FACTOR = 0.1 and the
draw u = 0.05 the effective multiplier is 1.05, not 1.0, and the reported
value 1050 differs from the real downloaded amount 1000 that a 1.0
multiplier would report.  The mode is COOLDOWN as claimed. -/
theorem C2_cooldown_randomized :
    (do_GET c2cfg c2st c2url 500 (1/20)).decision =
      some ⟨Mode.COOLDOWN, 21/20, 1050⟩ ∧
    (21/20 : ℚ) ≠ 1 ∧ (1050 : ℤ) ≠ 1000 := by
  refine ⟨by decide!, by decide!, by decide!⟩

/-- Claim C3 (counterexample): entity h has stored state (reported 100,
last update at time 50); an announce at the same instant (elapsed time
zero, downloaded 1000, multiplier 1.6) persists 1600, not the previous
value 100: a zero elapsed time skips the cap entirely instead of capping
growth to exactly the previous reported value. -/
theorem C3_counterexample :
    (lookupT (do_GET exCfg c3st c1url1 50 0).state.torrents ("h".data)).map
        (fun e => e.uploaded_reported) = some 1600 ∧
    (1600 : ℤ) ≠ 100 := by
  refine ⟨by decide!, by decide!⟩

/-- Claim C4 (counterexample): in the URL c4url the located substring
uploaded=5 also occurs inside the unrelated parameter reuploaded=5;
str.replace rewrites both occurrences, so the forwarded URL differs from
the original in two places, not only in the single located substring
(which would have produced the second URL below). -/
theorem C4_counterexample :
    (do_GET exCfg st0 c4url 0 0).url =
      "/ann?info_hash=h&uploaded=4&downloaded=3&reuploaded=4".data ∧
    (do_GET exCfg st0 c4url 0 0).url ≠
      "/ann?info_hash=h&uploaded=4&downloaded=3&reuploaded=5".data := by
  refine ⟨by decide!, by decide!⟩

/-- Claim C6 (counterexample): in the request c6url the field uploaded has
the value 12abc, which is not syntactically a number, yet the regex
uploaded=(digits) matches its numeric head 12, so the request is not passed
through: the URL is rewritten and an entity is created in the store. -/
theorem C6_counterexample :
    specFieldValue c6url ("uploaded".data) = some ("12abc".data) ∧
    isNumeric ("12abc".data) = false ∧
    (do_GET exCfg st0 c6url 0 0).url ≠ c6url ∧
    (do_GET exCfg st0 c6url 0 0).state.torrents ≠ [] := by
  refine ⟨by decide!, by decide!, by decide!, by decide!⟩

/-- Claim C8 (confirmed): with randomization factor 0 (so the uniform draw
is necessarily 0), max multiplier 1.6, seeding multiplier 1.2, an
effectively unlimited rate, no prior state and the ratio limit not
reached, the announce with downloaded=104857600 and left=0 reports exactly
125829120 in SEEDING mode, and the same announce with left=1 reports
exactly 167772160 in DOWNLOADING mode. -/
theorem C8_concrete_scenario :
    (do_GET c8cfg st0 c8urlSeed 0 0).decision = some ⟨Mode.SEEDING, 6/5, 125829120⟩ ∧
    (do_GET c8cfg st0 c8urlDown 0 0).decision = some ⟨Mode.DOWNLOADING, 8/5, 167772160⟩ := by
  refine ⟨by decide!, by decide!⟩

/-- Claim C1 (amended): the persisted uploadedReported value is not
monotone in general; it does not decrease across an announce exactly in
the cases where the candidate value int(downloaded * effectiveMultiplier)
is at least the previously stored value (given a nonnegative rate cap),
because the rate cap only ever lowers the candidate toward
previous + rate * elapsed, never below the previous value.  The second
conjunct identifies the persisted entry with the decision's reported
value. -/
theorem C1_amended (cfg : Config) (st : ProxyState) (ih : Str)
    (d ur left : ℕ) (t u : ℚ)
    (hrate : 0 ≤ cfg.MAX_SPEED_BPS)
    (hcand : prev_reported_of st ih ≤
      truncQ ((d : ℚ) * (announceCore cfg st ih d ur left t u).2.multiplier)) :
    prev_reported_of st ih ≤ (announceCore cfg st ih d ur left t u).2.reported_upload ∧
    (lookupT (announceCore cfg st ih d ur left t u).1.torrents ih).map
        (fun x => x.uploaded_reported) =
      some ((announceCore cfg st ih d ur left t u).2.reported_upload) := by
  constructor
  · rw [announceCore_reported]
    split_ifs with h1 h2
    · have hx : 0 ≤ truncQ (cfg.MAX_SPEED_BPS * (t - last_update_of st ih t)) :=
        truncQ_nonneg (mul_nonneg hrate (le_of_lt h1))
      omega
    · exact hcand
    · exact hcand
  · rw [announceCore_store, lookupT_upsert]
    simp

theorem C1_amended_witness :
    prev_reported_of stH ("h".data) ≤
      (announceCore exCfg stH ("h".data) 2000 0 1 100 0).2.reported_upload ∧
    (lookupT (announceCore exCfg stH ("h".data) 2000 0 1 100 0).1.torrents ("h".data)).map
        (fun x => x.uploaded_reported) =
      some ((announceCore exCfg stH ("h".data) 2000 0 1 100 0).2.reported_upload) :=
  C1_amended exCfg stH ("h".data) 2000 0 1 100 0 (by decide!) (by decide!)

/-- Claim C3 (amended): when the entity already has stored state and the
elapsed time since its last update is zero or negative, the rate cap of
lines 172-176 is skipped entirely: the candidate
int(downloaded * effectiveMultiplier) is returned and persisted as
computed, with no capping to the previously reported value. -/
theorem C3_amended (cfg : Config) (st : ProxyState) (ih : Str)
    (d ur left : ℕ) (t u : ℚ) (e : EntityState)
    (he : lookupT st.torrents ih = some e)
    (hdelta : t - e.last_update ≤ 0) :
    (announceCore cfg st ih d ur left t u).2.reported_upload =
      truncQ ((d : ℚ) * (announceCore cfg st ih d ur left t u).2.multiplier) ∧
    (lookupT (announceCore cfg st ih d ur left t u).1.torrents ih).map
        (fun x => x.uploaded_reported) =
      some (truncQ ((d : ℚ) * (announceCore cfg st ih d ur left t u).2.multiplier)) := by
  have hlu : last_update_of st ih t = e.last_update := by
    simp [last_update_of, he]
  have hr := announceCore_reported cfg st ih d ur left t u
  rw [hlu, if_neg (not_lt.mpr hdelta)] at hr
  refine ⟨hr, ?_⟩
  rw [announceCore_store, lookupT_upsert]
  simp [hr]

theorem C3_amended_witness :
    (announceCore exCfg stH ("h".data) 500 0 1 0 0).2.reported_upload =
      truncQ (((500 : ℕ) : ℚ) * (announceCore exCfg stH ("h".data) 500 0 1 0 0).2.multiplier) ∧
    (lookupT (announceCore exCfg stH ("h".data) 500 0 1 0 0).1.torrents ("h".data)).map
        (fun x => x.uploaded_reported) =
      some (truncQ (((500 : ℕ) : ℚ) *
        (announceCore exCfg stH ("h".data) 500 0 1 0 0).2.multiplier)) :=
  C3_amended exCfg stH ("h".data) 500 0 1 0 0 ⟨1000, 0, 1600, 0⟩ (by decide!) (by decide!)

/-- Claim C4 (amended): line 187 replaces every non-overlapping occurrence
of the located substring; when that substring occurs exactly once in the
URL, the forwarded URL is the original with only that substring replaced
by the rewritten uploaded field, and every other character is preserved
byte for byte. -/
theorem C4_amended (cfg : Config) (st : ProxyState) (url : Str) (t u : ℚ)
    (pat : Str) (dec : Decision)
    (hpat : matchedUploaded url = some pat)
    (hdec : (do_GET cfg st url t u).decision = some dec)
    (hone : countOcc pat url = 1) :
    ∃ a b : Str, url = a ++ pat ++ b ∧
      (do_GET cfg st url t u).url =
        a ++ ("uploaded=".data ++ intToDecimal dec.reported_upload) ++ b := by
  cases hu : reSearch ("uploaded=".data) Char.isDigit url with
  | none => simp [matchedUploaded, hu] at hpat
  | some um =>
    have hp : "uploaded=".data ++ um.2.1 = pat := by
      simpa [matchedUploaded, hu] using hpat
    cases hd : reSearch ("downloaded=".data) Char.isDigit url with
    | none => simp [do_GET, hu, hd] at hdec
    | some dm =>
      cases hh : reSearch ("info_hash=".data) (fun c => c != '&') url with
      | none => simp [do_GET, hu, hd, hh] at hdec
      | some hm =>
        simp only [do_GET, hu, hd, hh] at hdec ⊢
        have hdec2 : (announceCore cfg st (percentDecode hm.2.1) (natOfDigits dm.2.1)
            (natOfDigits um.2.1)
            (match reSearch ("left=".data) Char.isDigit url with
             | some lm => natOfDigits lm.2.1
             | none => 1) t u).2 = dec := by
          simpa using hdec
        obtain ⟨a, b, hs, hr⟩ :=
          replaceAll_of_countOcc_eq_one pat
            ("uploaded=".data ++ intToDecimal dec.reported_upload)
            url.length url le_rfl hone
        refine ⟨a, b, hs, ?_⟩
        rw [hdec2, hp]
        exact hr

theorem C4_amended_witness :
    ∃ a b : Str, c4wurl = a ++ ("uploaded=7".data) ++ b ∧
      (do_GET exCfg st0 c4wurl 0 0).url =
        a ++ ("uploaded=".data ++ intToDecimal (16 : ℤ)) ++ b :=
  C4_amended exCfg st0 c4wurl 0 0 ("uploaded=7".data) ⟨Mode.DOWNLOADING, 8/5, 16⟩
    (by decide!) (by decide!) (by decide!)

/-- Claim C5 (confirmed): for an entity with stored state and strictly
positive elapsed time, the reported value equals
min(candidate, previousReported + int(maxRate * elapsed)), which is within
one byte below the exact min(candidate, previousReported + maxRate * elapsed)
of the specification, and the growth reported - previousReported is at most
maxRate * elapsed; for an unknown entity (no prior state) no cap is applied
and the candidate is reported as computed. -/
theorem C5_rate_cap (cfg : Config) (st : ProxyState) (ih : Str)
    (d ur left : ℕ) (t u : ℚ)
    (hrate : 0 ≤ cfg.MAX_SPEED_BPS) :
    (0 < t - last_update_of st ih t →
      (announceCore cfg st ih d ur left t u).2.reported_upload =
        min (truncQ ((d : ℚ) * (announceCore cfg st ih d ur left t u).2.multiplier))
            (prev_reported_of st ih +
              truncQ (cfg.MAX_SPEED_BPS * (t - last_update_of st ih t))) ∧
      ((announceCore cfg st ih d ur left t u).2.reported_upload : ℚ) ≤
        min ((truncQ ((d : ℚ) * (announceCore cfg st ih d ur left t u).2.multiplier) : ℚ))
            ((prev_reported_of st ih : ℚ) +
              cfg.MAX_SPEED_BPS * (t - last_update_of st ih t)) ∧
      min ((truncQ ((d : ℚ) * (announceCore cfg st ih d ur left t u).2.multiplier) : ℚ))
          ((prev_reported_of st ih : ℚ) +
            cfg.MAX_SPEED_BPS * (t - last_update_of st ih t)) <
        ((announceCore cfg st ih d ur left t u).2.reported_upload : ℚ) + 1 ∧
      ((announceCore cfg st ih d ur left t u).2.reported_upload : ℚ) -
          (prev_reported_of st ih : ℚ) ≤
        cfg.MAX_SPEED_BPS * (t - last_update_of st ih t)) ∧
    (lookupT st.torrents ih = none →
      (announceCore cfg st ih d ur left t u).2.reported_upload =
        truncQ ((d : ℚ) * (announceCore cfg st ih d ur left t u).2.multiplier)) := by
  constructor
  · intro hd1
    have hx : 0 ≤ cfg.MAX_SPEED_BPS * (t - last_update_of st ih t) :=
      mul_nonneg hrate (le_of_lt hd1)
    have hfl : truncQ (cfg.MAX_SPEED_BPS * (t - last_update_of st ih t)) =
        ⌊cfg.MAX_SPEED_BPS * (t - last_update_of st ih t)⌋ := truncQ_eq_floor hx
    have hle : ((truncQ (cfg.MAX_SPEED_BPS * (t - last_update_of st ih t)) : ℤ) : ℚ) ≤
        cfg.MAX_SPEED_BPS * (t - last_update_of st ih t) := by
      rw [hfl]; exact Int.floor_le _
    have hlt : cfg.MAX_SPEED_BPS * (t - last_update_of st ih t) <
        ((truncQ (cfg.MAX_SPEED_BPS * (t - last_update_of st ih t)) : ℤ) : ℚ) + 1 := by
      rw [hfl]; exact Int.lt_floor_add_one _
    have hrep := announceCore_reported cfg st ih d ur left t u
    rw [if_pos hd1] at hrep
    refine ⟨?_, ?_, ?_, ?_⟩
    · rw [hrep]
      split_ifs with h
      · exact (min_eq_right (le_of_lt h)).symm
      · exact (min_eq_left (not_lt.mp h)).symm
    · rw [hrep]
      split_ifs with h
      · push_cast
        refine le_min ?_ ?_
        · exact_mod_cast le_of_lt h
        · linarith
      · push_cast
        refine le_min le_rfl ?_
        have hq : ((truncQ ((d : ℚ) * (announceCore cfg st ih d ur left t u).2.multiplier) : ℤ) : ℚ) ≤
            ((prev_reported_of st ih : ℤ) : ℚ) +
              ((truncQ (cfg.MAX_SPEED_BPS * (t - last_update_of st ih t)) : ℤ) : ℚ) := by
          exact_mod_cast not_lt.mp h
        linarith
    · rw [hrep]
      split_ifs with h
      · calc min ((truncQ ((d : ℚ) * (announceCore cfg st ih d ur left t u).2.multiplier) : ℚ))
              ((prev_reported_of st ih : ℚ) + cfg.MAX_SPEED_BPS * (t - last_update_of st ih t)) ≤
            (prev_reported_of st ih : ℚ) + cfg.MAX_SPEED_BPS * (t - last_update_of st ih t) :=
              min_le_right _ _
          _ < _ := by push_cast; linarith
      · calc min ((truncQ ((d : ℚ) * (announceCore cfg st ih d ur left t u).2.multiplier) : ℚ))
              ((prev_reported_of st ih : ℚ) + cfg.MAX_SPEED_BPS * (t - last_update_of st ih t)) ≤
            (truncQ ((d : ℚ) * (announceCore cfg st ih d ur left t u).2.multiplier) : ℚ) :=
              min_le_left _ _
          _ < _ := by linarith
    · rw [hrep]
      split_ifs with h
      · push_cast; linarith
      · have hq : ((truncQ ((d : ℚ) * (announceCore cfg st ih d ur left t u).2.multiplier) : ℤ) : ℚ) ≤
            ((prev_reported_of st ih : ℤ) : ℚ) +
              ((truncQ (cfg.MAX_SPEED_BPS * (t - last_update_of st ih t)) : ℤ) : ℚ) := by
          exact_mod_cast not_lt.mp h
        linarith
  · intro hnone
    have hlu : last_update_of st ih t = t := by simp [last_update_of, hnone]
    have hrep := announceCore_reported cfg st ih d ur left t u
    rw [hlu] at hrep
    simpa using hrep

theorem C5_rate_cap_witness :
    (announceCore exCfg stH ("h".data) 2000 0 1 100 0).2.reported_upload =
      min (truncQ (((2000 : ℕ) : ℚ) * (announceCore exCfg stH ("h".data) 2000 0 1 100 0).2.multiplier))
          (prev_reported_of stH ("h".data) +
            truncQ (exCfg.MAX_SPEED_BPS * ((100 : ℚ) - last_update_of stH ("h".data) 100))) ∧
    ((announceCore exCfg stH ("h".data) 2000 0 1 100 0).2.reported_upload : ℚ) ≤
      min ((truncQ (((2000 : ℕ) : ℚ) * (announceCore exCfg stH ("h".data) 2000 0 1 100 0).2.multiplier) : ℚ))
          ((prev_reported_of stH ("h".data) : ℚ) +
            exCfg.MAX_SPEED_BPS * ((100 : ℚ) - last_update_of stH ("h".data) 100)) ∧
    min ((truncQ (((2000 : ℕ) : ℚ) * (announceCore exCfg stH ("h".data) 2000 0 1 100 0).2.multiplier) : ℚ))
        ((prev_reported_of stH ("h".data) : ℚ) +
          exCfg.MAX_SPEED_BPS * ((100 : ℚ) - last_update_of stH ("h".data) 100)) <
      ((announceCore exCfg stH ("h".data) 2000 0 1 100 0).2.reported_upload : ℚ) + 1 ∧
    ((announceCore exCfg stH ("h".data) 2000 0 1 100 0).2.reported_upload : ℚ) -
        (prev_reported_of stH ("h".data) : ℚ) ≤
      exCfg.MAX_SPEED_BPS * ((100 : ℚ) - last_update_of stH ("h".data) 100) :=
  (C5_rate_cap exCfg stH ("h".data) 2000 0 1 100 0 (by decide!)).1 (by decide!)

/-- Claim C6 (amended): pass-through is decided by the regex substring
scan, not by exact field parsing: whenever one of the three patterns
uploaded=(digits), downloaded=(digits), info_hash=(non-ampersand run) has
no match anywhere in the URL, the request is forwarded with its original
query string completely unmodified and no entity state is created or
mutated (the whole process state is untouched). -/
theorem C6_amended (cfg : Config) (st : ProxyState) (url : Str) (t u : ℚ)
    (h : reSearch ("uploaded=".data) Char.isDigit url = none ∨
         reSearch ("downloaded=".data) Char.isDigit url = none ∨
         reSearch ("info_hash=".data) (fun c => c != '&') url = none) :
    do_GET cfg st url t u = ⟨st, url, none⟩ := by
  cases hu : reSearch ("uploaded=".data) Char.isDigit url with
  | none => simp [do_GET, hu]
  | some um =>
    cases hd : reSearch ("downloaded=".data) Char.isDigit url with
    | none => simp [do_GET, hu, hd]
    | some dm =>
      cases hh : reSearch ("info_hash=".data) (fun c => c != '&') url with
      | none => simp [do_GET, hu, hd, hh]
      | some hm =>
        rcases h with h | h | h
        · rw [hu] at h
          exact absurd h (by simp)
        · rw [hd] at h
          exact absurd h (by simp)
        · rw [hh] at h
          exact absurd h (by simp)

theorem C6_amended_witness :
    do_GET exCfg st0 c6wurl 0 0 = ⟨st0, c6wurl, none⟩ :=
  C6_amended exCfg st0 c6wurl 0 0 (Or.inl (by decide!))

/-- Claim C7 (confirmed): when the cooldown flag is inactive and the global
ratio of the store totals before this request's update exceeds the
configured limit, the announce activates the cooldown with end time
now + cooldownMinutes * 60, forces this request's mode to COOLDOWN and its
multiplier to exactly 1.0; and the global ratio is defined as 0 whenever
the total downloaded is 0. -/
theorem C7_cooldown_activation (cfg : Config) (st : ProxyState) (ih : Str)
    (d ur left : ℕ) (t u : ℚ)
    (hcd : st.is_in_cooldown = false)
    (hratio : cfg.GLOBAL_RATIO_LIMIT < get_global_ratio st.torrents) :
    (announceCore cfg st ih d ur left t u).1.is_in_cooldown = true ∧
    (announceCore cfg st ih d ur left t u).1.cooldown_end_time =
      t + (cfg.COOLDOWN_MINUTES : ℚ) * 60 ∧
    (announceCore cfg st ih d ur left t u).2.mode = Mode.COOLDOWN ∧
    (announceCore cfg st ih d ur left t u).2.multiplier = 1 ∧
    (get_total_downloaded st.torrents = 0 → get_global_ratio st.torrents = 0) := by
  refine ⟨?_, ?_, ?_, ?_, ?_⟩
  · simp [announceCore, hcd, hratio]
  · simp [announceCore, hcd, hratio]
  · simp [announceCore, hcd, hratio]
  · simp [announceCore, hcd, hratio]
  · intro h0
    simp [get_global_ratio, h0]

theorem C7_cooldown_activation_witness :
    (announceCore exCfg c7st ("h".data) 3 0 1 7 0).1.is_in_cooldown = true ∧
    (announceCore exCfg c7st ("h".data) 3 0 1 7 0).1.cooldown_end_time =
      7 + (exCfg.COOLDOWN_MINUTES : ℚ) * 60 ∧
    (announceCore exCfg c7st ("h".data) 3 0 1 7 0).2.mode = Mode.COOLDOWN ∧
    (announceCore exCfg c7st ("h".data) 3 0 1 7 0).2.multiplier = 1 ∧
    (get_total_downloaded c7st.torrents = 0 → get_global_ratio c7st.torrents = 0) :=
  C7_cooldown_activation exCfg c7st ("h".data) 3 0 1 7 0 (by decide!) (by decide!)

/-- Claim C9 (confirmed): an active cooldown is never deactivated early:
whenever processing one request turns the cooldown flag from active to
inactive, the request's time strictly exceeds the stored cooldown end
time.  A pass-through leaves the state untouched, so no other path clears
the flag. -/
theorem C9_no_early_cooldown_exit (cfg : Config) (st : ProxyState) (url : Str) (t u : ℚ)
    (hact : st.is_in_cooldown = true)
    (hinact : (do_GET cfg st url t u).state.is_in_cooldown = false) :
    st.cooldown_end_time < t := by
  by_contra hle
  cases hu : reSearch ("uploaded=".data) Char.isDigit url with
  | none =>
    simp only [do_GET, hu] at hinact
    rw [hinact] at hact
    exact Bool.noConfusion hact
  | some um =>
    cases hd : reSearch ("downloaded=".data) Char.isDigit url with
    | none =>
      simp only [do_GET, hu, hd] at hinact
      rw [hinact] at hact
      exact Bool.noConfusion hact
    | some dm =>
      cases hh : reSearch ("info_hash=".data) (fun c => c != '&') url with
      | none =>
        simp only [do_GET, hu, hd, hh] at hinact
        rw [hinact] at hact
        exact Bool.noConfusion hact
      | some hm =>
        simp only [do_GET, hu, hd, hh] at hinact
        rw [announceCore_keeps_cooldown cfg st _ _ _ _ t u hact hle] at hinact
        exact Bool.noConfusion hinact

theorem C9_witness : c9st.cooldown_end_time < 20 :=
  C9_no_early_cooldown_exit exCfg c9st c9url 20 0 (by decide!) (by decide!)

/-- Claim C10 (confirmed, under the intended nonnegative effective
multiplier): for every processed announce the persisted reported value is
at most the floor of downloaded times the effective multiplier; the rate
cap can only lower the candidate, never raise it.  The second conjunct
identifies the persisted entry with the decision's reported value. -/
theorem C10_reported_le_candidate (cfg : Config) (st : ProxyState) (ih : Str)
    (d ur left : ℕ) (t u : ℚ)
    (hm : 0 ≤ (announceCore cfg st ih d ur left t u).2.multiplier) :
    (announceCore cfg st ih d ur left t u).2.reported_upload ≤
      ⌊(d : ℚ) * (announceCore cfg st ih d ur left t u).2.multiplier⌋ ∧
    (lookupT (announceCore cfg st ih d ur left t u).1.torrents ih).map
        (fun x => x.uploaded_reported) =
      some ((announceCore cfg st ih d ur left t u).2.reported_upload) := by
  have hprod : 0 ≤ (d : ℚ) * (announceCore cfg st ih d ur left t u).2.multiplier :=
    mul_nonneg (by positivity) hm
  constructor
  · rw [← truncQ_eq_floor hprod, announceCore_reported]
    split_ifs with h1 h2
    · omega
    · omega
    · omega
  · rw [announceCore_store, lookupT_upsert]
    simp

theorem C10_witness :
    (announceCore exCfg stH ("h".data) 1000 0 0 50 0).2.reported_upload ≤
      ⌊((1000 : ℕ) : ℚ) * (announceCore exCfg stH ("h".data) 1000 0 0 50 0).2.multiplier⌋ ∧
    (lookupT (announceCore exCfg stH ("h".data) 1000 0 0 50 0).1.torrents ("h".data)).map
        (fun x => x.uploaded_reported) =
      some ((announceCore exCfg stH ("h".data) 1000 0 0 50 0).2.reported_upload) :=
  C10_reported_le_candidate exCfg stH ("h".data) 1000 0 0 50 0 (by decide!)

end NewGreedy
